import Mathlib

/-!
Verification of the predicate-level ACL engine of the dgraph fork.

The repository ships the ACL integration tests (`ee/acl/acl_test.go`);
the enforcement engine itself (permission cache, reserved-predicate
guard, request interceptor) is not part of the source tree, so the
definitions below are modelled from the specification (`spec.md`),
with the observable behaviour pinned by the shipped tests: permission
bitmasks READ(4)/WRITE(2)/MODIFY(1), group rules, the guardians
bypass, the reserved `dgraph.` namespace, silent query elision, and
the eventually-consistent permission cache.
-/

namespace DgraphAcl

/-- Modelled from the spec: the READ permission bit (value 4),
missing from src (only `Read.Code` is referenced by the tests). -/
def READ : Nat := 4

/-- Modelled from the spec: the WRITE permission bit (value 2). -/
def WRITE : Nat := 2

/-- Modelled from the spec: the MODIFY/alter permission bit (value 1). -/
def MODIFY : Nat := 1

/-- Modelled from the spec: a Rule is a pair of predicate and
permission bitmask attached to a group (§3 of the spec); the rule
store is an ordered sequence of such entries. -/
structure Rule where
  group : String
  predicate : String
  permission : Nat
deriving DecidableEq, Repr

/-- Modelled from the spec: `Lookup(group, predicate) → bitmask`,
0 if absent (§4.3); at most one rule per (group, predicate) pair is
kept by the store, so the first match is the rule. -/
def Lookup (rules : List Rule) (g p : String) : Nat :=
  match rules.find? (fun r => r.group == g && r.predicate == p) with
  | some r => r.permission
  | none => 0

/-- Modelled from the spec: `LookupEffective(groups, predicate)` is the
bitwise OR across all of the caller's groups' bitmasks (§4.3). -/
def LookupEffective (rules : List Rule) (groups : List String) (p : String) : Nat :=
  groups.foldr (fun g acc => Lookup rules g p ||| acc) 0

theorem lookupEffective_nil (rules : List Rule) (p : String) :
    LookupEffective rules [] p = 0 := rfl

theorem lookupEffective_cons (rules : List Rule) (g : String) (gs : List String) (p : String) :
    LookupEffective rules (g :: gs) p = Lookup rules g p ||| LookupEffective rules gs p := rfl

/-- A group with no rule for a predicate contributes bitmask 0. -/
theorem lookup_eq_zero_of_no_rule (rules : List Rule) (g p : String)
    (h : ∀ r ∈ rules, ¬(r.group = g ∧ r.predicate = p)) :
    Lookup rules g p = 0 := by
  unfold Lookup
  have hf : rules.find? (fun r => r.group == g && r.predicate == p) = none := by
    rw [List.find?_eq_none]
    intro r hr
    have := h r hr
    simp only [Bool.and_eq_true, beq_iff_eq]
    intro hcontra
    exact this ⟨hcontra.1, hcontra.2⟩
  rw [hf]

/-- C8: effective permission of a two-group set is the bitwise OR of the
single-group effective permissions, and a group with no rule for a
predicate has effective permission 0 (deny by default). -/
theorem C8_lookupEffective_union_and_default (rules : List Rule) (g1 g2 p : String) :
    LookupEffective rules [g1, g2] p
      = LookupEffective rules [g1] p ||| LookupEffective rules [g2] p
    ∧ ((∀ r ∈ rules, ¬(r.group = g1 ∧ r.predicate = p)) →
        LookupEffective rules [g1] p = 0) := by
  constructor
  · show Lookup rules g1 p ||| (Lookup rules g2 p ||| 0)
      = (Lookup rules g1 p ||| 0) ||| (Lookup rules g2 p ||| 0)
    simp [Nat.lor_assoc]
  · intro h
    show Lookup rules g1 p ||| 0 = 0
    rw [lookup_eq_zero_of_no_rule rules g1 p h]
    rfl

/-- Witness for C8 at a concrete rule store: the dev group holds READ(4)
on name and ops holds WRITE(2) on name, so the union gets 6, and the qa
group, which has no rule on name, gets 0. -/
theorem C8_lookupEffective_union_and_default_witness :
    LookupEffective [⟨"dev", "name", 4⟩, ⟨"ops", "name", 2⟩] ["dev", "ops"] "name"
      = LookupEffective [⟨"dev", "name", 4⟩, ⟨"ops", "name", 2⟩] ["dev"] "name"
        ||| LookupEffective [⟨"dev", "name", 4⟩, ⟨"ops", "name", 2⟩] ["ops"] "name"
    ∧ LookupEffective [⟨"dev", "name", 4⟩, ⟨"ops", "name", 2⟩] ["qa"] "name" = 0 := by
  refine ⟨(C8_lookupEffective_union_and_default _ "dev" "ops" "name").1, ?_⟩
  exact (C8_lookupEffective_union_and_default
    [⟨"dev", "name", 4⟩, ⟨"ops", "name", 2⟩] "qa" "ops" "name").2 (by decide)

/-- Modelled from the spec: an RDF triple of the graph store; the
subject edge of a set/delete triple is its predicate (§4.4). -/
structure Triple where
  subj : String
  pred : String
  obj : String
deriving DecidableEq, Repr

/-- Modelled from the spec: the state visible to the enforcement
interceptor — the current permission-cache rules, the user→group
membership edges, the predicate schema, and the committed graph data.
The engine holding this state is missing from src. -/
structure AclState where
  rules : List Rule
  userGroups : List (String × String)
  schema : List (String × String)
  data : List Triple
deriving DecidableEq, Repr

/-- Modelled from the spec: resolve the caller's current group set from
the membership edges (§2, §4.1). -/
def resolveGroups (st : AclState) (u : String) : List String :=
  (st.userGroups.filter (fun x => x.fst == u)).map (fun x => x.snd)

/-- Modelled from the spec: the guardians bypass test — membership is
resolved dynamically from the current state, not frozen into the token
(§4.1, §4.4). -/
def isGuardian (st : AclState) (u : String) : Bool :=
  (resolveGroups st u).contains "guardians"

/-- Lower-cased code of an ASCII character, used for the
case-insensitive reserved-namespace comparison. -/
def lowerCode (c : Char) : Nat :=
  if 65 ≤ c.toNat && c.toNat ≤ 90 then c.toNat + 32 else c.toNat

/-- Modelled from the spec: `IsReserved(predicateName)` via
case-insensitive namespace-prefix match on `dgraph.` (§4.5); the tests
pin case-insensitivity (`dgraph.XID` is reserved). -/
def IsReserved (p : String) : Bool :=
  List.isPrefixOf ("dgraph.".data.map lowerCode) (p.data.map lowerCode)

/-- Rejection message for a semantic change of a reserved predicate,
pinned verbatim by the tests (acl_test.go:263). -/
def reservedModifiedMsg (p : String) : String :=
  "predicate " ++ p ++ " is reserved and is not allowed to be modified"

/-- Rejection message for a drop of a reserved predicate, pinned
verbatim by the tests (acl_test.go:270). -/
def reservedDroppedMsg (p : String) : String :=
  "predicate " ++ p ++ " is reserved and is not allowed to be dropped"

/-- Denial message for an ACL-rejected request; the tests only pin the
`PermissionDenied` substring (acl_test.go:658). -/
def permissionDeniedMsg (op p : String) : String :=
  "PermissionDenied: unauthorized to " ++ op ++ " predicate " ++ p

/-- Error for requests presented without an access token; the tests pin
only that such requests fail (acl_test.go:581-598). -/
def unauthenticatedMsg : String :=
  "Unauthenticated: no accessJwt available"

/-- Modelled from the spec: an alter request either proposes a schema
for a predicate or drops the predicate (§4.4, acl_test.go:248-279). -/
inductive AlterOp where
  | setSchema (pred schema : String)
  | dropAttr (pred : String)
deriving DecidableEq, Repr

/-- The predicate an alter request refers to. -/
def AlterOp.pred : AlterOp → String
  | .setSchema p _ => p
  | .dropAttr p => p

/-- Current schema of a predicate, if declared. -/
def lookupSchema (schema : List (String × String)) (p : String) : Option String :=
  match schema.find? (fun x => x.fst == p) with
  | some x => some x.snd
  | none => none

/-- Modelled from the spec: the Reserved Predicate Guard's
`CheckAlter` — allow iff the predicate is not reserved or the proposed
schema is identical to the current one; a drop of a reserved predicate
is always denied (§4.5). -/
def CheckAlter (schema : List (String × String)) : AlterOp → Except String Unit
  | .setSchema p s =>
    if IsReserved p then
      if lookupSchema schema p == some s then Except.ok ()
      else Except.error (reservedModifiedMsg p)
    else Except.ok ()
  | .dropAttr p =>
    if IsReserved p then Except.error (reservedDroppedMsg p)
    else Except.ok ()

/-- Apply an authorized alter to the state: replace the predicate's
schema entry, or drop the predicate's schema and data. -/
def applyAlter (st : AclState) : AlterOp → AclState
  | .setSchema p s =>
    { st with schema := (p, s) :: st.schema.filter (fun x => !(x.fst == p)) }
  | .dropAttr p =>
    { st with
      schema := st.schema.filter (fun x => !(x.fst == p))
      data := st.data.filter (fun t => !(t.pred == p)) }

/-- Caller holds the MODIFY bit on a predicate, or is a guardian. -/
def canModifyPred (st : AclState) (u p : String) : Bool :=
  isGuardian st u || (LookupEffective st.rules (resolveGroups st u) p &&& MODIFY != 0)

/-- Modelled from the spec: the alter path of the Enforcement
Interceptor (§4.4) — anonymous callers are rejected (pinned by
acl_test.go:594), then the Reserved Predicate Guard is consulted first
and a rejection stops the request regardless of ACL, then MODIFY is
required unless the caller is a guardian. -/
def handleAlter (st : AclState) (caller : Option String) (op : AlterOp) :
    Except String AclState :=
  match caller with
  | none => Except.error unauthenticatedMsg
  | some u =>
    match CheckAlter st.schema op with
    | Except.error e => Except.error e
    | Except.ok _ =>
      if canModifyPred st u op.pred then Except.ok (applyAlter st op)
      else Except.error (permissionDeniedMsg "alter" op.pred)

/-- The schema of `dgraph.xid` used by the tests (acl_test.go:254). -/
def xidSchema : String := "dgraph.xid: string @index(exact) @upsert ."

/-- State with groot (a guardians member) and the reserved predicate
`dgraph.xid` declared, as at bootstrap. -/
def stGroot : AclState :=
  { rules := []
    userGroups := [("groot", "guardians")]
    schema := [("dgraph.xid", xidSchema)]
    data := [] }

/-- State with alice in the ordinary group dev holding no rules, and
the reserved predicate `dgraph.xid` declared. -/
def stAlice : AclState :=
  { rules := []
    userGroups := [("alice", "dev")]
    schema := [("dgraph.xid", xidSchema)]
    data := [] }

/-- A semantic schema change of a reserved predicate is stopped by the
guard with the reserved message, for every caller. -/
theorem handleAlter_reserved_modified (st : AclState) (u p s : String)
    (hres : IsReserved p = true) (hne : lookupSchema st.schema p ≠ some s) :
    handleAlter st (some u) (AlterOp.setSchema p s)
      = Except.error (reservedModifiedMsg p) := by
  have hbe : (lookupSchema st.schema p == some s) = false := by
    simpa using hne
  simp [handleAlter, CheckAlter, hres, hbe]

/-- A drop of a reserved predicate is stopped by the guard with the
reserved message, for every caller. -/
theorem handleAlter_reserved_dropped (st : AclState) (u p : String)
    (hres : IsReserved p = true) :
    handleAlter st (some u) (AlterOp.dropAttr p)
      = Except.error (reservedDroppedMsg p) := by
  simp [handleAlter, CheckAlter, hres]

/-- C1, counterexample: the claim says an alter of a reserved predicate
succeeds if and only if the proposed schema is identical to the current
one, for every caller identity and group set; but for alice, who holds
no MODIFY permission, the identical re-assertion of `dgraph.xid` is
still rejected by the ACL check that follows the reserved guard, so the
"if" direction fails. -/
theorem C1_reserved_alter_counterexample :
    IsReserved "dgraph.xid" = true
    ∧ lookupSchema stAlice.schema "dgraph.xid" = some xidSchema
    ∧ handleAlter stAlice (some "alice") (AlterOp.setSchema "dgraph.xid" xidSchema)
        = Except.error (permissionDeniedMsg "alter" "dgraph.xid") := by
  refine ⟨by decide, rfl, rfl⟩

/-- C1 (amended): for every predicate matching the reserved namespace
prefix case-insensitively and every authenticated caller — groot and
guardians included, regardless of MODIFY —, a semantic schema change is
rejected naming the predicate as reserved and a drop attempt is
rejected naming the predicate as reserved; and for a caller passing the
ACL check (guardian or MODIFY holder), the alter succeeds iff the
proposed schema is identical to the current one. -/
theorem C1_reserved_alter (st : AclState) (u p s : String)
    (hres : IsReserved p = true) :
    (lookupSchema st.schema p ≠ some s →
      handleAlter st (some u) (AlterOp.setSchema p s)
        = Except.error (reservedModifiedMsg p))
    ∧ handleAlter st (some u) (AlterOp.dropAttr p)
        = Except.error (reservedDroppedMsg p)
    ∧ (canModifyPred st u p = true →
        (handleAlter st (some u) (AlterOp.setSchema p s)
            = Except.ok (applyAlter st (AlterOp.setSchema p s))
          ↔ lookupSchema st.schema p = some s)) := by
  refine ⟨?_, ?_, ?_⟩
  · exact handleAlter_reserved_modified st u p s hres
  · exact handleAlter_reserved_dropped st u p hres
  · intro hmod
    constructor
    · intro hok
      by_cases heq : lookupSchema st.schema p = some s
      · exact heq
      · have hbe : (lookupSchema st.schema p == some s) = false := by
          simpa using heq
        simp [handleAlter, CheckAlter, hres, hbe] at hok
    · intro heq
      have hbe : (lookupSchema st.schema p == some s) = true := by
        simpa using heq
      simp [handleAlter, CheckAlter, hres, hbe, AlterOp.pred, hmod]

/-- Witness for C1 (amended) at groot altering `dgraph.xid`: the
semantic change `dgraph.xid: int .` and the drop are rejected with the
reserved-predicate messages even for this guardian, the case variant
`dgraph.XID` is likewise rejected, and the identical re-assertion
succeeds. -/
theorem C1_reserved_alter_witness :
    handleAlter stGroot (some "groot") (AlterOp.setSchema "dgraph.xid" "dgraph.xid: int .")
      = Except.error (reservedModifiedMsg "dgraph.xid")
    ∧ handleAlter stGroot (some "groot") (AlterOp.dropAttr "dgraph.xid")
      = Except.error (reservedDroppedMsg "dgraph.xid")
    ∧ handleAlter stGroot (some "groot") (AlterOp.setSchema "dgraph.XID" "dgraph.XID: int .")
      = Except.error (reservedModifiedMsg "dgraph.XID")
    ∧ handleAlter stGroot (some "groot") (AlterOp.setSchema "dgraph.xid" xidSchema)
      = Except.ok (applyAlter stGroot (AlterOp.setSchema "dgraph.xid" xidSchema)) := by
  refine ⟨?_, ?_, ?_, ?_⟩
  · exact (C1_reserved_alter stGroot "groot" "dgraph.xid" "dgraph.xid: int ."
      (by decide)).1 (by decide)
  · exact (C1_reserved_alter stGroot "groot" "dgraph.xid" xidSchema (by decide)).2.1
  · exact (C1_reserved_alter stGroot "groot" "dgraph.XID" "dgraph.XID: int ."
      (by decide)).1 (by decide)
  · exact ((C1_reserved_alter stGroot "groot" "dgraph.xid" xidSchema
      (by decide)).2.2 (by decide)).mpr (by decide)

/-- Caller holds the READ bit on a predicate, or is a guardian. -/
def canReadPred (st : AclState) (u p : String) : Bool :=
  isGuardian st u || (LookupEffective st.rules (resolveGroups st u) p &&& READ != 0)

/-- Caller holds the WRITE bit on a predicate, or is a guardian. -/
def canWritePred (st : AclState) (u p : String) : Bool :=
  isGuardian st u || (LookupEffective st.rules (resolveGroups st u) p &&& WRITE != 0)

/-- Modelled from the spec: one query block of a request — a root
selection function keyed on a predicate, projection fields, an optional
order-by predicate, an optional group-by clause carrying its attribute
list, and an optional post-filter requiring a predicate value (§4.4,
acl_test.go:818-895). -/
structure Query where
  rootPred : String
  projection : List String
  orderBy : Option String
  groupBy : Option (List String)
  filterPred : Option (String × String)
deriving DecidableEq, Repr

/-- The result of one query block: either rows of projected fields, or
group-by buckets of value and count. -/
inductive QueryResult where
  | rows (out : List (List (String × String)))
  | grouped (buckets : List (String × Nat))
deriving DecidableEq, Repr

/-- The empty result a denied root selection evaluates to. -/
def emptyResult : QueryResult := QueryResult.rows []

/-- First value of a predicate on a subject in the graph. -/
def valueOf (data : List Triple) (s p : String) : Option String :=
  match data.find? (fun t => t.subj == s && t.pred == p) with
  | some t => some t.obj
  | none => none

/-- Subjects selected by the root function `has(p)`. -/
def rootNodes (data : List Triple) (p : String) : List String :=
  (data.filter (fun t => t.pred == p)).map (fun t => t.subj)

/-- Apply the optional post-filter: keep subjects whose predicate value
equals the required one. -/
def applyFilter (data : List Triple) (fl : Option (String × String))
    (nodes : List String) : List String :=
  match fl with
  | none => nodes
  | some (p, v) => nodes.filter (fun s => valueOf data s p == some v)

/-- Ordering on optional string keys used by order-by. -/
def optLe (a b : Option String) : Bool :=
  match a, b with
  | none, _ => true
  | some _, none => false
  | some x, some y => decide (x ≤ y)

/-- Insert into a list sorted by `le`. -/
def insertBy (le : String → String → Bool) (x : String) : List String → List String
  | [] => [x]
  | y :: ys => if le x y then x :: y :: ys else y :: insertBy le x ys

/-- Insertion sort by `le`. -/
def sortBy (le : String → String → Bool) : List String → List String
  | [] => []
  | x :: xs => insertBy le x (sortBy le xs)

/-- Apply the optional order-by: sort subjects by their value at the
order predicate. -/
def applyOrder (data : List Triple) (ob : Option String)
    (nodes : List String) : List String :=
  match ob with
  | none => nodes
  | some p => sortBy (fun a b => optLe (valueOf data a p) (valueOf data b p)) nodes

/-- Project the requested fields of one subject, omitting absent ones. -/
def projectNode (data : List Triple) (fields : List String) (s : String) :
    List (String × String) :=
  fields.foldr
    (fun f acc =>
      match valueOf data s f with
      | some v => (f, v) :: acc
      | none => acc) []

/-- Count a value into the group-by buckets. -/
def bump (v : String) : List (String × Nat) → List (String × Nat)
  | [] => [(v, 1)]
  | (w, n) :: rest => if w == v then (w, n + 1) :: rest else (w, n) :: bump v rest

/-- Group subjects by their value at the group-by attribute and count
them; subjects without a value are skipped. -/
def groupCount (data : List Triple) (p : String) (nodes : List String) :
    List (String × Nat) :=
  nodes.foldl
    (fun acc s =>
      match valueOf data s p with
      | some v => bump v acc
      | none => acc) []

/-- Modelled from the spec: the execution engine's evaluation of one
query block, unaware of permissions (§6); a group-by clause whose
attribute list is empty selects nothing. -/
def execQuery (data : List Triple) (q : Query) : QueryResult :=
  let ns := applyOrder data q.orderBy
    (applyFilter data q.filterPred (rootNodes data q.rootPred))
  match q.groupBy with
  | none => QueryResult.rows (ns.map (projectNode data q.projection))
  | some [] => QueryResult.grouped []
  | some (a :: _) => QueryResult.grouped (groupCount data a ns)

/-- Drop an unreadable order-by or group-by-free clause. -/
def stripClause (cr : String → Bool) : Option String → Option String
  | none => none
  | some p => if cr p then some p else none

/-- Modelled from the spec: the pre-pass that strips unauthorized
predicate references from a parsed query block before it reaches the
engine (§9): unreadable projection fields, order-by, group-by
attributes, and post-filters are removed. -/
def stripQuery (cr : String → Bool) (q : Query) : Query :=
  { rootPred := q.rootPred
    projection := q.projection.filter cr
    orderBy := stripClause cr q.orderBy
    groupBy := q.groupBy.map (fun attrs => attrs.filter cr)
    filterPred :=
      match q.filterPred with
      | none => none
      | some (p, v) => if cr p then some (p, v) else none }

/-- Modelled from the spec: evaluation of one query block by the
Enforcement Interceptor for an authenticated caller — guardians get the
block unstripped, a root selection predicate without READ evaluates to
the empty result, otherwise the stripped block is executed (§4.4). -/
def runBlock (st : AclState) (u : String) (q : Query) : QueryResult :=
  if isGuardian st u then execQuery st.data q
  else if canReadPred st u q.rootPred then
    execQuery st.data (stripQuery (canReadPred st u) q)
  else emptyResult

/-- Modelled from the spec: the query path of the Enforcement
Interceptor — anonymous callers are rejected (pinned by
acl_test.go:592), and for an authenticated caller every block is
evaluated independently and the request never hard-fails (§4.4). -/
def handleQuery (st : AclState) (caller : Option String) (q : Query) :
    Except String QueryResult :=
  match caller with
  | none => Except.error unauthenticatedMsg
  | some u => Except.ok (runBlock st u q)

/-- A whole query request: its blocks are evaluated independently. -/
def handleRequest (st : AclState) (caller : Option String) (qs : List Query) :
    Except String (List QueryResult) :=
  match caller with
  | none => Except.error unauthenticatedMsg
  | some u => Except.ok (qs.map (runBlock st u))

instance exceptDecEq {ε α : Type} [DecidableEq ε] [DecidableEq α] :
    DecidableEq (Except ε α)
  | Except.error e, Except.error f =>
    if h : e = f then Decidable.isTrue (by rw [h])
    else Decidable.isFalse (fun hc => h (by injection hc))
  | Except.error _, Except.ok _ => Decidable.isFalse (fun hc => Except.noConfusion hc)
  | Except.ok _, Except.error _ => Decidable.isFalse (fun hc => Except.noConfusion hc)
  | Except.ok x, Except.ok y =>
    if h : x = y then Decidable.isTrue (by rw [h])
    else Decidable.isFalse (fun hc => h (by injection hc))

/-- State mirroring TestQueryRemoveUnauthorizedPred: alice belongs to
dev, dev holds only READ(4) on name, and the data holds two people
with name, age and nickname values (acl_test.go:769-815). -/
def stQuery : AclState :=
  { rules := [⟨"dev", "name", 4⟩]
    userGroups := [("alice", "dev")]
    schema := [("name", "string @index(exact) ."),
               ("nickname", "string @index(exact) ."),
               ("age", "int .")]
    data := [⟨"a", "name", "RandomGuy"⟩, ⟨"a", "age", "23"⟩, ⟨"a", "nickname", "RG"⟩,
             ⟨"b", "name", "RandomGuy2"⟩, ⟨"b", "age", "25"⟩, ⟨"b", "nickname", "RG2"⟩] }

/-- A block whose root selection predicate is unreadable evaluates to
the empty result without an error. -/
theorem handleQuery_root_denied (st : AclState) (u : String) (q : Query)
    (h : canReadPred st u q.rootPred = false) :
    handleQuery st (some u) q = Except.ok emptyResult := by
  have hc : isGuardian st u = false
      ∧ LookupEffective st.rules (resolveGroups st u) q.rootPred &&& READ = 0 := by
    simpa [canReadPred] using h
  simp [handleQuery, runBlock, hc.1, h]

/-- C4: a query block whose root selection predicate lacks READ for the
caller's effective permission evaluates to the empty result, and the
query call returns success, never a hard error. -/
theorem C4_root_denied_empty (st : AclState) (u : String) (q : Query)
    (h : canReadPred st u q.rootPred = false) :
    handleQuery st (some u) q = Except.ok emptyResult :=
  handleQuery_root_denied st u q h

/-- Witness for C4: alice, with READ only on name, queries a block
rooted on `has(age)`; the block evaluates to `{}` and the call
succeeds (acl_test.go:836-846). -/
theorem C4_root_denied_empty_witness :
    canReadPred stQuery "alice" "age" = false
    ∧ handleQuery stQuery (some "alice")
        { rootPred := "age", projection := ["name", "age"],
          orderBy := none, groupBy := none, filterPred := none }
      = Except.ok emptyResult := by
  refine ⟨by decide, ?_⟩
  exact C4_root_denied_empty stQuery "alice"
    { rootPred := "age", projection := ["name", "age"],
      orderBy := none, groupBy := none, filterPred := none } (by decide)

/-- Remove every reference to the field `f` from a query block: the
projection drops it, an order-by on it is unspecified, it is removed
from the group-by attribute list, and a post-filter on it is
unspecified. -/
def elideField (f : String) (q : Query) : Query :=
  { rootPred := q.rootPred
    projection := q.projection.filter (fun x => !(x == f))
    orderBy :=
      match q.orderBy with
      | none => none
      | some p => if p == f then none else some p
    groupBy := q.groupBy.map (fun attrs => attrs.filter (fun x => !(x == f)))
    filterPred :=
      match q.filterPred with
      | none => none
      | some (p, v) => if p == f then none else some (p, v) }

theorem filter_filter_ne (cr : String → Bool) (f : String) (hf : cr f = false) :
    ∀ l : List String, (l.filter (fun x => !(x == f))).filter cr = l.filter cr := by
  intro l
  induction l with
  | nil => rfl
  | cons x xs ih =>
    by_cases hx : x = f
    · subst hx
      simp [List.filter, hf, ih]
    · have hbe : (x == f) = false := by simpa using hx
      simp only [List.filter, hbe, Bool.not_false]
      cases hcr : cr x <;> simp [List.filter, hcr, ih]

theorem stripQuery_elideField (cr : String → Bool) (f : String) (hf : cr f = false)
    (q : Query) : stripQuery cr (elideField f q) = stripQuery cr q := by
  cases q with
  | mk root proj ob gb fp =>
    have hproj : (proj.filter (fun x => !(x == f))).filter cr = proj.filter cr :=
      filter_filter_ne cr f hf proj
    have hob :
        stripClause cr
          (match ob with
           | none => none
           | some p => if p == f then none else some p) = stripClause cr ob := by
      cases ob with
      | none => rfl
      | some p =>
        by_cases hp : p = f
        · subst hp
          simp [stripClause, hf]
        · have hbe : (p == f) = false := by simpa using hp
          simp [hbe]
    have hgb :
        (gb.map (fun attrs => attrs.filter (fun x => !(x == f)))).map
            (fun attrs => attrs.filter cr)
          = gb.map (fun attrs => attrs.filter cr) := by
      cases gb with
      | none => rfl
      | some attrs => simp [filter_filter_ne cr f hf attrs]
    have hfp :
        (match (match fp with
                | none => none
                | some (p, v) => if p == f then none else some (p, v)) with
         | none => none
         | some (p, v) => if cr p then some (p, v) else none)
          = (match fp with
             | none => none
             | some (p, v) => if cr p then some (p, v) else none) := by
      cases fp with
      | none => rfl
      | some pv =>
        cases pv with
        | mk p v =>
          by_cases hp : p = f
          · subst hp
            simp [hf]
          · have hbe : (p == f) = false := by simpa using hp
            simp [hbe]
    simp only [stripQuery, elideField]
    rw [hproj, hob, hgb, hfp]

/-- C5 (amended): a predicate lacking READ that appears in a projection
field, an order-by, a group-by attribute list, or a filter is silently
elided: the block evaluates exactly as if every reference to that
predicate had been removed (field omitted, order-by and filter
unspecified, attribute dropped from the group-by list — a group-by left
with no attributes selects nothing), sibling clauses and other blocks
are unaffected, and no error is raised. -/
theorem C5_unauthorized_clause_elided (st : AclState) (u f : String) (q : Query)
    (h : canReadPred st u f = false) :
    handleQuery st (some u) q = handleQuery st (some u) (elideField f q)
    ∧ (∃ r, handleQuery st (some u) q = Except.ok r)
    ∧ (∀ qs : List Query,
        handleRequest st (some u) qs = Except.ok (qs.map (runBlock st u))) := by
  have hc : isGuardian st u = false
      ∧ LookupEffective st.rules (resolveGroups st u) f &&& READ = 0 := by
    simpa [canReadPred] using h
  refine ⟨?_, ⟨runBlock st u q, rfl⟩, fun qs => rfl⟩
  suffices hrb : runBlock st u q = runBlock st u (elideField f q) by
    simp [handleQuery, hrb]
  unfold runBlock
  rw [hc.1]
  have hroot : (elideField f q).rootPred = q.rootPred := rfl
  rw [hroot, stripQuery_elideField (canReadPred st u) f h q]
  simp

/-- Witness for C5 (amended): alice, with READ only on name, runs
`me(func: has(name)) {name age}`; the result equals that of the same
query with all references to age removed (acl_test.go:823-834). -/
theorem C5_unauthorized_clause_elided_witness :
    canReadPred stQuery "alice" "age" = false
    ∧ handleQuery stQuery (some "alice")
        { rootPred := "name", projection := ["name", "age"],
          orderBy := none, groupBy := none, filterPred := none }
      = handleQuery stQuery (some "alice")
          (elideField "age"
            { rootPred := "name", projection := ["name", "age"],
              orderBy := none, groupBy := none, filterPred := none }) := by
  refine ⟨by decide, ?_⟩
  exact (C5_unauthorized_clause_elided stQuery "alice" "age"
    { rootPred := "name", projection := ["name", "age"],
      orderBy := none, groupBy := none, filterPred := none } (by decide)).1

/-- C5, counterexample to the group-by conjunct: the claim says a
group-by on an unreadable predicate behaves as if the group-by were not
specified; but `me(func: has(name)) @groupby(age) {name}` evaluates to
the empty grouped result (the tests pin `{}`, acl_test.go:864-872)
whereas the same block without the group-by clause returns the two
name rows — the two results differ. -/
theorem C5_groupby_counterexample :
    canReadPred stQuery "alice" "age" = false
    ∧ handleQuery stQuery (some "alice")
        { rootPred := "name", projection := ["name"],
          orderBy := none, groupBy := some ["age"], filterPred := none }
      = Except.ok (QueryResult.grouped [])
    ∧ handleQuery stQuery (some "alice")
        { rootPred := "name", projection := ["name"],
          orderBy := none, groupBy := none, filterPred := none }
      = Except.ok (QueryResult.rows [[("name", "RandomGuy")], [("name", "RandomGuy2")]])
    ∧ handleQuery stQuery (some "alice")
        { rootPred := "name", projection := ["name"],
          orderBy := none, groupBy := some ["age"], filterPred := none }
      ≠ handleQuery stQuery (some "alice")
          { rootPred := "name", projection := ["name"],
            orderBy := none, groupBy := none, filterPred := none } := by
  refine ⟨by decide, by decide, by decide, by decide⟩

/-- Modelled from the spec: an operation of a mutation transaction — a
set triple, or a delete of all values of a predicate on a subject, as
in `<uid> <pred> * .` (§4.4, acl_test.go:650-654). -/
inductive MutOp where
  | setT (t : Triple)
  | delT (subj pred : String)
deriving DecidableEq, Repr

/-- The predicate a mutation operation touches. -/
def mutPred : MutOp → String
  | MutOp.setT t => t.pred
  | MutOp.delT _ p => p

/-- Apply one mutation operation to the committed data. -/
def applyMut (data : List Triple) : MutOp → List Triple
  | MutOp.setT t => data ++ [t]
  | MutOp.delT s p => data.filter (fun t => !(t.subj == s && t.pred == p))

/-- Modelled from the spec: the mutation path of the Enforcement
Interceptor — anonymous callers are rejected (pinned by
acl_test.go:593); otherwise WRITE is required on every predicate
appearing as the edge of a set/delete triple, and the first failure
rejects the whole transaction with a PermissionDenied error (§4.4). -/
def handleMutation (st : AclState) (caller : Option String) (ops : List MutOp) :
    Except String (List Triple) :=
  match caller with
  | none => Except.error unauthenticatedMsg
  | some u =>
    match ops.find? (fun op => !canWritePred st u (mutPred op)) with
    | some op => Except.error (permissionDeniedMsg "mutate" (mutPred op))
    | none => Except.ok (ops.foldl applyMut st.data)

/-- Commit a mutation transaction: on success the new data replaces the
old, on rejection the state is unchanged (all-or-nothing). -/
def commitMutation (st : AclState) (caller : Option String) (ops : List MutOp) :
    AclState :=
  match handleMutation st caller ops with
  | Except.ok d => { st with data := d }
  | Except.error _ => st

theorem permissionDeniedMsg_decomp (op p : String) :
    permissionDeniedMsg op p
      = "" ++ ("PermissionDenied"
          ++ (": unauthorized to " ++ (op ++ (" predicate " ++ p)))) := by
  unfold permissionDeniedMsg
  rw [String.empty_append, ← String.append_assoc,
    show ("PermissionDenied" ++ ": unauthorized to " : String)
      = "PermissionDenied: unauthorized to " from by decide,
    String.append_assoc, String.append_assoc]

/-- C3: a mutation transaction touching any predicate without WRITE for
the caller's effective permission is rejected whole — the error message
contains the substring PermissionDenied and the committed data is
unchanged — while a transaction touching only WRITE-authorized
predicates succeeds and commits every triple. -/
theorem C3_mutation_all_or_nothing (st : AclState) (u : String) (ops : List MutOp) :
    ((∃ op ∈ ops, canWritePred st u (mutPred op) = false) →
      (∃ e, handleMutation st (some u) ops = Except.error e
        ∧ ∃ pre post, e = pre ++ ("PermissionDenied" ++ post))
      ∧ commitMutation st (some u) ops = st)
    ∧ ((∀ op ∈ ops, canWritePred st u (mutPred op) = true) →
      handleMutation st (some u) ops = Except.ok (ops.foldl applyMut st.data)
      ∧ commitMutation st (some u) ops
          = { st with data := ops.foldl applyMut st.data }) := by
  constructor
  · intro hex
    have hsome : (ops.find? (fun op => !canWritePred st u (mutPred op))).isSome := by
      rw [List.find?_isSome]
      rcases hex with ⟨op, hmem, hop⟩
      exact ⟨op, hmem, by simp [hop]⟩
    rcases Option.isSome_iff_exists.mp hsome with ⟨op, hfind⟩
    have hmut : handleMutation st (some u) ops
        = Except.error (permissionDeniedMsg "mutate" (mutPred op)) := by
      simp [handleMutation, hfind]
    refine ⟨⟨permissionDeniedMsg "mutate" (mutPred op), hmut,
      "", ": unauthorized to " ++ ("mutate" ++ (" predicate " ++ mutPred op)),
      permissionDeniedMsg_decomp "mutate" (mutPred op)⟩, ?_⟩
    simp [commitMutation, hmut]
  · intro hall
    have hnone : ops.find? (fun op => !canWritePred st u (mutPred op)) = none := by
      rw [List.find?_eq_none]
      intro op hmem
      simp [hall op hmem]
    have hmut : handleMutation st (some u) ops
        = Except.ok (ops.foldl applyMut st.data) := by
      simp [handleMutation, hnone]
    exact ⟨hmut, by simp [commitMutation, hmut]⟩

/-- State mirroring TestNewACLPredicates: alice belongs to dev, dev
holds READ(4) on name and WRITE(2) on nickname
(acl_test.go:1061-1072). -/
def stMut : AclState :=
  { rules := [⟨"dev", "name", 4⟩, ⟨"dev", "nickname", 2⟩]
    userGroups := [("alice", "dev")]
    schema := [("name", "string @index(exact) ."),
               ("nickname", "string @index(exact) .")]
    data := [⟨"a", "name", "RandomGuy"⟩, ⟨"a", "nickname", "RG"⟩] }

/-- Witness for C3: alice cannot set a name triple (no WRITE on name)
and the state is unchanged, while the nickname mutation commits
(acl_test.go:952-979). -/
theorem C3_mutation_all_or_nothing_witness :
    ((∃ e, handleMutation stMut (some "alice") [MutOp.setT ⟨"x", "name", "Animesh"⟩]
        = Except.error e ∧ ∃ pre post, e = pre ++ ("PermissionDenied" ++ post))
      ∧ commitMutation stMut (some "alice") [MutOp.setT ⟨"x", "name", "Animesh"⟩] = stMut)
    ∧ handleMutation stMut (some "alice") [MutOp.setT ⟨"x", "nickname", "Pathak"⟩]
        = Except.ok ([MutOp.setT ⟨"x", "nickname", "Pathak"⟩].foldl applyMut stMut.data) := by
  constructor
  · exact (C3_mutation_all_or_nothing stMut "alice"
      [MutOp.setT ⟨"x", "name", "Animesh"⟩]).1
      ⟨MutOp.setT ⟨"x", "name", "Animesh"⟩, by decide, by decide⟩
  · exact ((C3_mutation_all_or_nothing stMut "alice"
      [MutOp.setT ⟨"x", "nickname", "Pathak"⟩]).2 (by decide)).1

/-- Modelled from the spec: schema introspection (`schema {}`) is
login-gated only, never predicate-gated — any authenticated identity
receives the full predicate metadata, and a caller without a valid
token is rejected (§4.4, acl_test.go:559-560, 578, 596-597). -/
def handleSchemaQuery (st : AclState) (caller : Option String) :
    Except String (List (String × String)) :=
  match caller with
  | none => Except.error unauthenticatedMsg
  | some _ => Except.ok st.schema

/-- C7: a schema-introspection query succeeds for every authenticated
identity regardless of the predicate permissions its groups hold, and
fails for a caller presenting no valid token. -/
theorem C7_schema_introspection (st : AclState) (u : String) :
    handleSchemaQuery st (some u) = Except.ok st.schema
    ∧ handleSchemaQuery st none = Except.error unauthenticatedMsg :=
  ⟨rfl, rfl⟩

/-- C6, counterexample: the claim says a caller without a token is
treated as the anonymous identity with an empty group set and degrades
exactly like an authenticated caller with no grants; but the tests pin
that an anonymous query hard-fails (acl_test.go:592) while alice, who
is authenticated with no grants, gets an empty successful result — the
two outcomes differ at this concrete input. -/
theorem C6_anonymous_counterexample :
    handleQuery stAlice (some "alice")
        { rootPred := "name", projection := ["name"],
          orderBy := none, groupBy := none, filterPred := none }
      = Except.ok emptyResult
    ∧ handleQuery stAlice none
        { rootPred := "name", projection := ["name"],
          orderBy := none, groupBy := none, filterPred := none }
      = Except.error unauthenticatedMsg
    ∧ handleQuery stAlice none
        { rootPred := "name", projection := ["name"],
          orderBy := none, groupBy := none, filterPred := none }
      ≠ handleQuery stAlice (some "alice")
          { rootPred := "name", projection := ["name"],
            orderBy := none, groupBy := none, filterPred := none } := by
  refine ⟨by decide, by decide, by decide⟩

/-- C6 (amended): a request presented without an access token is not
evaluated under the permission-bitmask rules at all — queries,
mutations, alters, and schema introspection are each rejected with the
authentication error. -/
theorem C6_no_token_rejected (st : AclState) (q : Query) (ops : List MutOp)
    (aop : AlterOp) :
    handleQuery st none q = Except.error unauthenticatedMsg
    ∧ handleMutation st none ops = Except.error unauthenticatedMsg
    ∧ handleAlter st none aop = Except.error unauthenticatedMsg
    ∧ handleSchemaQuery st none = Except.error unauthenticatedMsg :=
  ⟨rfl, rfl, rfl, rfl⟩

/-- Remove a user from a group by deleting the membership edge; the
change is visible to the next request because guardianship is resolved
dynamically from the state, not from the token (§4.1). -/
def removeUserFromGroup (st : AclState) (u g : String) : AclState :=
  { st with
    userGroups := st.userGroups.filter (fun x => !(x.fst == u && x.snd == g)) }

/-- C2: a caller whose resolved group set includes guardians bypasses
every predicate check — queries run unstripped, mutations and
non-reserved alters (schema changes and drops alike) succeed
regardless of the permission bitmasks — with the sole exception of
reserved-predicate semantic alters and drops; and
because membership is resolved dynamically rather than frozen into the
token, once the identity is removed from guardians (leaving it no
groups) subsequent requests lose the bypass: mutations and alters are
denied and queries no longer reach the data. -/
theorem C2_guardian_bypass (st : AclState) (u : String)
    (hgu : isGuardian st u = true)
    (hafter : resolveGroups (removeUserFromGroup st u "guardians") u = []) :
    (∀ q : Query, handleQuery st (some u) q = Except.ok (execQuery st.data q))
    ∧ (∀ ops : List MutOp,
        handleMutation st (some u) ops = Except.ok (ops.foldl applyMut st.data))
    ∧ (∀ p s : String, IsReserved p = false →
        handleAlter st (some u) (AlterOp.setSchema p s)
          = Except.ok (applyAlter st (AlterOp.setSchema p s)))
    ∧ (∀ p s : String, IsReserved p = true → lookupSchema st.schema p ≠ some s →
        handleAlter st (some u) (AlterOp.setSchema p s)
          = Except.error (reservedModifiedMsg p))
    ∧ (∀ p : String, IsReserved p = false →
        handleAlter st (some u) (AlterOp.dropAttr p)
          = Except.ok (applyAlter st (AlterOp.dropAttr p)))
    ∧ (∀ p : String, IsReserved p = true →
        handleAlter st (some u) (AlterOp.dropAttr p)
          = Except.error (reservedDroppedMsg p))
    ∧ isGuardian (removeUserFromGroup st u "guardians") u = false
    ∧ (∀ t : Triple,
        handleMutation (removeUserFromGroup st u "guardians") (some u) [MutOp.setT t]
          = Except.error (permissionDeniedMsg "mutate" t.pred))
    ∧ (∀ p s : String, IsReserved p = false →
        handleAlter (removeUserFromGroup st u "guardians") (some u)
            (AlterOp.setSchema p s)
          = Except.error (permissionDeniedMsg "alter" p))
    ∧ (∀ q : Query,
        handleQuery (removeUserFromGroup st u "guardians") (some u) q
          = Except.ok emptyResult) := by
  have hng : isGuardian (removeUserFromGroup st u "guardians") u = false := by
    simp [isGuardian, hafter]
  refine ⟨?_, ?_, ?_, ?_, ?_, ?_, hng, ?_, ?_, ?_⟩
  · intro q
    simp [handleQuery, runBlock, hgu]
  · intro ops
    have hnone : ops.find? (fun op => !canWritePred st u (mutPred op)) = none := by
      rw [List.find?_eq_none]
      intro op _
      simp [canWritePred, hgu]
    simp [handleMutation, hnone]
  · intro p s hnr
    simp [handleAlter, CheckAlter, hnr, canModifyPred, hgu]
  · intro p s hres hne
    exact handleAlter_reserved_modified st u p s hres hne
  · intro p hnr
    simp [handleAlter, CheckAlter, hnr, canModifyPred, hgu]
  · intro p hres
    exact handleAlter_reserved_dropped st u p hres
  · intro t
    have hw : canWritePred (removeUserFromGroup st u "guardians") u t.pred = false := by
      simp [canWritePred, hng, hafter]
      rw [lookupEffective_nil]
      decide
    simp [handleMutation, List.find?, mutPred, hw]
  · intro p s hnr
    have hm : canModifyPred (removeUserFromGroup st u "guardians") u p = false := by
      simp [canModifyPred, hng, hafter]
      rw [lookupEffective_nil]
      decide
    simp [handleAlter, CheckAlter, hnr, AlterOp.pred, hm]
  · intro q
    apply handleQuery_root_denied
    simp [canReadPred, hng, hafter]
    rw [lookupEffective_nil]
    decide

/-- State mirroring TestGuardianAccess: the user guardian belongs to
the guardians group, no rules exist, and the data holds one value of
the otherwise unshared predicate unauthpred (acl_test.go:661-714). -/
def stGuard : AclState :=
  { rules := []
    userGroups := [("guardian", "guardians")]
    schema := [("unauthpred", "string @index(exact) .")]
    data := [⟨"n1", "unauthpred", "testdata"⟩] }

/-- The guardian test's query, `me(func: eq(unauthpred, ...)) {uid}`,
modelled as a block rooted on unauthpred (acl_test.go:694-699). -/
def qUnauth : Query :=
  { rootPred := "unauthpred"
    projection := ["unauthpred"]
    orderBy := none
    groupBy := none
    filterPred := none }

/-- Witness for C2: the guardian user mutates, queries, and alters
unauthpred with no rule granting anything; after being removed from
guardians the same mutation is denied and the same query returns the
empty result. -/
theorem C2_guardian_bypass_witness :
    handleMutation stGuard (some "guardian") [MutOp.setT ⟨"n1", "unauthpred", "testdata"⟩]
      = Except.ok ([MutOp.setT ⟨"n1", "unauthpred", "testdata"⟩].foldl applyMut stGuard.data)
    ∧ handleQuery stGuard (some "guardian") qUnauth
      = Except.ok (execQuery stGuard.data qUnauth)
    ∧ handleAlter stGuard (some "guardian") (AlterOp.setSchema "unauthpred" "unauthpred: int .")
      = Except.ok (applyAlter stGuard (AlterOp.setSchema "unauthpred" "unauthpred: int ."))
    ∧ handleMutation (removeUserFromGroup stGuard "guardian" "guardians") (some "guardian")
        [MutOp.setT ⟨"n1", "unauthpred", "testdata"⟩]
      = Except.error (permissionDeniedMsg "mutate" "unauthpred")
    ∧ handleQuery (removeUserFromGroup stGuard "guardian" "guardians") (some "guardian")
        qUnauth
      = Except.ok emptyResult := by
  have h := C2_guardian_bypass stGuard "guardian" (by decide) (by decide)
  exact ⟨h.2.1 [MutOp.setT ⟨"n1", "unauthpred", "testdata"⟩],
    h.1 qUnauth,
    h.2.2.1 "unauthpred" "unauthpred: int ." (by decide),
    h.2.2.2.2.2.2.2.1 ⟨"n1", "unauthpred", "testdata"⟩,
    h.2.2.2.2.2.2.2.2.2 qUnauth⟩

/-- Modelled from the spec: a server instance paired with the
persistent rule store — the server's `AclState.rules` is the in-memory
permission-cache snapshot, rebuilt from the store only at refresh
(§4.2, §4.3). -/
structure SysState where
  storeRules : List Rule
  server : AclState
deriving DecidableEq, Repr

/-- Modelled from the spec: delete a rule from the persistent store;
the cache snapshot in use by the server is untouched (§4.3,
acl_test.go:1042). -/
def deleteRuleStore (s : SysState) (g p : String) : SysState :=
  { s with
    storeRules := s.storeRules.filter (fun r => !(r.group == g && r.predicate == p)) }

/-- Modelled from the spec: the periodic cache refresh — build a new
snapshot from the store and publish it atomically (§4.3). -/
def refreshCache (s : SysState) : SysState :=
  { s with server := { s.server with rules := s.storeRules } }

theorem lookup_filter_removed (rules : List Rule) (g p : String) :
    Lookup (rules.filter (fun r => !(r.group == g && r.predicate == p))) g p = 0 := by
  unfold Lookup
  have hfind : (rules.filter (fun r => !(r.group == g && r.predicate == p))).find?
      (fun r => r.group == g && r.predicate == p) = none := by
    rw [List.find?_eq_none]
    intro x hx
    have h2 := (List.mem_filter.mp hx).2
    simp only [Bool.not_eq_true'] at h2
    simp [h2]
  rw [hfind]

/-- C9: a revocation written to the rule store is invisible to
enforcement until a refresh — the server's state, hence every query
decision, is unchanged by the store write — and is always reflected
once the next refresh publishes the store snapshot: after deleting the
READ rule that was the caller's only grant on a predicate and
refreshing, a query rooted on that predicate reverts to the empty
denied result. -/
theorem C9_revocation_after_refresh (s : SysState) (g p u : String) (q : Query)
    (hgroups : resolveGroups s.server u = [g])
    (hng : isGuardian s.server u = false)
    (hroot : q.rootPred = p) :
    (deleteRuleStore s g p).server = s.server
    ∧ (∀ (caller : Option String) (q' : Query),
        handleQuery (deleteRuleStore s g p).server caller q'
          = handleQuery s.server caller q')
    ∧ (refreshCache (deleteRuleStore s g p)).server.rules
        = (deleteRuleStore s g p).storeRules
    ∧ handleQuery (refreshCache (deleteRuleStore s g p)).server (some u) q
        = Except.ok emptyResult := by
  refine ⟨rfl, fun caller q' => rfl, rfl, ?_⟩
  have hgr : resolveGroups (refreshCache (deleteRuleStore s g p)).server u = [g] :=
    hgroups
  have hgn : isGuardian (refreshCache (deleteRuleStore s g p)).server u = false :=
    hng
  apply handleQuery_root_denied
  rw [hroot]
  simp [canReadPred, hgn, hgr]
  rw [lookupEffective_cons, lookupEffective_nil]
  show (Lookup (s.storeRules.filter (fun r => !(r.group == g && r.predicate == p))) g p
    ||| 0) &&& READ = 0
  rw [lookup_filter_removed]
  decide

/-- The system of TestNegativePermissionDeleteRule: the store holds the
dev READ rule on name and the server's cache has it published; alice
belongs to dev (acl_test.go:1015-1048). -/
def sysNeg : SysState :=
  { storeRules := [⟨"dev", "name", 4⟩]
    server := stQuery }

/-- Witness for C9: deleting dev's READ rule on name leaves alice's
query result unchanged until refresh, and after the refresh the query
`{me(func: has(name)) {name}}` returns the empty result. -/
theorem C9_revocation_after_refresh_witness :
    (∀ (caller : Option String) (q' : Query),
      handleQuery (deleteRuleStore sysNeg "dev" "name").server caller q'
        = handleQuery sysNeg.server caller q')
    ∧ handleQuery (refreshCache (deleteRuleStore sysNeg "dev" "name")).server
        (some "alice")
        { rootPred := "name", projection := ["name"],
          orderBy := none, groupBy := none, filterPred := none }
      = Except.ok emptyResult := by
  have h := C9_revocation_after_refresh sysNeg "dev" "name" "alice"
    { rootPred := "name", projection := ["name"],
      orderBy := none, groupBy := none, filterPred := none }
    (by decide) (by decide) rfl
  exact ⟨h.2.1, h.2.2.2⟩

end DgraphAcl
